import Mathlib

/-!
Verification of the MainTalk authentication layer.

Shallow embedding of the repository's authentication code:
* `src/MainCode/src/authentication/login.service.js` — the login-redirect URL
  codec (`parseLoginRedirectUrl`, `buildLoginRedirectUrl`) and, from the
  `openLoginWebView` body, the PKCE challenge pipeline and the
  resolution latch of the login window.
* `src/unnamed/part_000` (`custom/domainAuth.js`) — credential-file handling
  (`fixCredentialsFormat`, `readSaved`, `validateCredentials`) and
  `determineAuthStrategy`.
* `src/MainCode/2.0.1-beta/src/main.js` — the process-wide deep-link
  mailbox (`notifyDeepLink` and the `oauth-wait-code` IPC handler).

JavaScript idioms are embedded explicitly: absent-or-string fields become
`Option String`, JS truthiness of a string is "non-empty", fallible
builtins return `Option`.
-/

/-- JS truthiness of a string value: falsy iff empty. -/
def truthyStr (s : String) : Bool := s ≠ ""

/-- JS truthiness of a possibly-undefined string field. -/
def truthyOpt (o : Option String) : Bool :=
  match o with
  | none => false
  | some s => s ≠ ""

/-- JS `a || b` on possibly-undefined string values. -/
def jsOr (a b : Option String) : Option String :=
  if truthyOpt a then a else b

/-- `s.startsWith(p)` (kernel-reducible form of the JS/Lean prefix test). -/
def strStartsWith (s p : String) : Bool := p.toList.isPrefixOf s.toList

/-- JS `str.split(sep)` for a single-character separator. -/
def splitOnChar (sep : Char) : List Char → List (List Char)
  | [] => [[]]
  | c :: rest =>
    let r := splitOnChar sep rest
    if c = sep then [] :: r
    else
      match r with
      | [] => [[c]]
      | h :: t => (c :: h) :: t

/-! ### Model of the `new URL` builtin

`parseLoginRedirectUrl` and `validateCredentials` call the WHATWG URL
parser (`new URL(s)`) only to test whether `s` parses and to read its
`protocol`. `jsURLProtocol` models that builtin: it returns the lowercased
scheme (with the trailing colon) when the string parses as an absolute URL,
`none` when `new URL` would throw. Special schemes (http, https, ws, wss,
ftp) require a non-empty well-formed host; other schemes take an opaque
path and always parse. -/

def isSchemeFirstChar (c : Char) : Bool := c.isAlpha

def isSchemeRestChar (c : Char) : Bool :=
  c.isAlphanum || c = '+' || c = '-' || c = '.'

def isForbiddenHostChar (c : Char) : Bool :=
  c.toNat ≤ 0x20 || c = '#' || c = '/' || c = '?' || c = '@' || c = ':' ||
  c.toNat = 0x5C || c = '<' || c = '>' || c.toNat = 0x5B || c.toNat = 0x5D ||
  c = '^' || c = '|' || c.toNat = 0x7b || c.toNat = 0x7d || c.toNat = 0x22

def jsURLProtocol (s : String) : Option String :=
  let cs := s.toList.filter (fun c => c ≠ '\t' && c ≠ '\n' && c ≠ '\r')
  let cs := cs.dropWhile (fun c => c.toNat ≤ 0x20)
  let cs := (cs.reverse.dropWhile (fun c => c.toNat ≤ 0x20)).reverse
  match cs with
  | [] => none
  | c0 :: rest =>
    if ¬ isSchemeFirstChar c0 then none
    else
      let schemeRest := rest.takeWhile isSchemeRestChar
      let afterScheme := rest.drop schemeRest.length
      match afterScheme with
      | ':' :: tail =>
        let scheme := String.mk ((c0 :: schemeRest).map Char.toLower)
        if scheme = "http" || scheme = "https" || scheme = "ws" ||
           scheme = "wss" || scheme = "ftp" then
          let afterSlashes := tail.dropWhile (fun c => c = '/' || c.toNat = 0x5C)
          let hostPort := afterSlashes.takeWhile
            (fun c => c ≠ '/' && c ≠ '?' && c ≠ '#' && c.toNat ≠ 0x5C)
          let hp := (hostPort.reverse.takeWhile (· ≠ '@')).reverse
          let host := hp.takeWhile (· ≠ ':')
          let port := (hp.dropWhile (· ≠ ':')).drop 1
          if host.isEmpty then none
          else if host.any isForbiddenHostChar then none
          else if ¬ port.all Char.isDigit then none
          else some (scheme ++ ":")
        else
          some (scheme ++ ":")
      | _ => none

/-! ### Models of `decodeURIComponent` / `encodeURIComponent` -/

def hexDigitVal (c : Char) : Option Nat :=
  if '0' ≤ c ∧ c ≤ '9' then some (c.toNat - 48)
  else if 'A' ≤ c ∧ c ≤ 'F' then some (c.toNat - 55)
  else if 'a' ≤ c ∧ c ≤ 'f' then some (c.toNat - 87)
  else none

/-- First pass of `decodeURIComponent`: each `%hh` becomes a byte
(`Sum.inr`), every other character passes through (`Sum.inl`); a `%` not
followed by two hex digits makes the builtin throw. -/
def pctTokens : List Char → Option (List (Char ⊕ Nat))
  | [] => some []
  | '%' :: rest =>
    match rest with
    | h1 :: h2 :: rest2 =>
      match hexDigitVal h1, hexDigitVal h2 with
      | some a, some b => (pctTokens rest2).map (fun ts => Sum.inr (16 * a + b) :: ts)
      | _, _ => none
    | _ => none
  | c :: rest => (pctTokens rest).map (fun ts => Sum.inl c :: ts)

def isContByte (b : Nat) : Bool := 0x80 ≤ b && b < 0xC0

/-- Second pass of `decodeURIComponent`: percent-decoded bytes must form
valid UTF-8 sequences, otherwise the builtin throws `URIError`. -/
def utf8DecodeToks : List (Char ⊕ Nat) → Option (List Char)
  | [] => some []
  | Sum.inl c :: ts => (utf8DecodeToks ts).map (c :: ·)
  | Sum.inr b :: ts =>
    if b < 0x80 then (utf8DecodeToks ts).map (Char.ofNat b :: ·)
    else if b < 0xC2 then none
    else if b < 0xE0 then
      match ts with
      | Sum.inr b2 :: ts2 =>
        if isContByte b2 then
          (utf8DecodeToks ts2).map (Char.ofNat ((b - 0xC0) * 64 + (b2 - 0x80)) :: ·)
        else none
      | _ => none
    else if b < 0xF0 then
      match ts with
      | Sum.inr b2 :: Sum.inr b3 :: ts3 =>
        if isContByte b2 && isContByte b3 then
          let cp := (b - 0xE0) * 4096 + (b2 - 0x80) * 64 + (b3 - 0x80)
          if cp < 0x800 || (0xD800 ≤ cp && cp ≤ 0xDFFF) then none
          else (utf8DecodeToks ts3).map (Char.ofNat cp :: ·)
        else none
      | _ => none
    else if b < 0xF5 then
      match ts with
      | Sum.inr b2 :: Sum.inr b3 :: Sum.inr b4 :: ts4 =>
        if isContByte b2 && isContByte b3 && isContByte b4 then
          let cp := (b - 0xF0) * 262144 + (b2 - 0x80) * 4096 +
                    (b3 - 0x80) * 64 + (b4 - 0x80)
          if cp < 0x10000 || cp > 0x10FFFF then none
          else (utf8DecodeToks ts4).map (Char.ofNat cp :: ·)
        else none
      | _ => none
    else none

/-- `decodeURIComponent`: `none` models a thrown `URIError`. -/
def decodeURIComponentJs (s : String) : Option String :=
  ((pctTokens s.toList).bind utf8DecodeToks).map String.mk

/-- Characters `encodeURIComponent` leaves unescaped
(`A-Z a-z 0-9 - _ . ! ~ * ' ( )`). -/
def encodeUnreserved (c : Char) : Bool :=
  c.isAlphanum || c = '-' || c = '_' || c = '.' || c = '!' || c = '~' ||
  c = '*' || c.toNat = 0x27 || c = '(' || c = ')'

def toHexDigit (n : Nat) : Char :=
  if n < 10 then Char.ofNat (48 + n) else Char.ofNat (55 + n)

def utf8BytesOfChar (c : Char) : List Nat :=
  let n := c.toNat
  if n < 0x80 then [n]
  else if n < 0x800 then [0xC0 + n / 64, 0x80 + n % 64]
  else if n < 0x10000 then [0xE0 + n / 4096, 0x80 + (n / 64) % 64, 0x80 + n % 64]
  else [0xF0 + n / 262144, 0x80 + (n / 4096) % 64, 0x80 + (n / 64) % 64, 0x80 + n % 64]

def encodeURIComponentJs (s : String) : String :=
  String.mk (s.toList.foldr
    (fun c acc =>
      (if encodeUnreserved c then [c]
       else (utf8BytesOfChar c).foldr
         (fun b acc2 => '%' :: toHexDigit (b / 16) :: toHexDigit (b % 16) :: acc2) []) ++ acc)
    [])

/-! ### LoginURLCodec — `login.service.js` -/

/-- The `Credentials` record produced by `parseLoginRedirectUrl` and
consumed by `buildLoginRedirectUrl`; `code`/`state` keys are present only
when set (JS object keys become `Option`). -/
structure Credentials where
  server : String
  user : String
  password : String
  code : Option String := none
  state : Option String := none
deriving DecidableEq, Repr

/-- The five parameter keys `parseLoginRedirectUrl` reads out of the
`key:value&key:value` list (other keys are stored in the JS `params` object
but never read). -/
structure LoginParams where
  server : Option String := none
  user : Option String := none
  password : Option String := none
  code : Option String := none
  state : Option String := none
deriving DecidableEq, Repr

/-- `decodeURIComponent(value)` with the `catch` fallback to the raw value. -/
def jsDecodeOr (v : String) : String := (decodeURIComponentJs v).getD v

/-- `decodeURIComponent(value.replaceAll('+', ' '))` with the `catch`
fallback to `value.replaceAll('+', ' ')`. -/
def jsDecodePlusOr (v : String) : String :=
  let vp := String.mk (v.toList.map (fun c => if c = '+' then ' ' else c))
  (decodeURIComponentJs vp).getD vp

/-- One iteration of the parameter loop of `parseLoginRedirectUrl`
(login.service.js lines 60–96): split the pair at its first colon, skip
empty keys/values, keep `server` raw, percent-decode `code`/`state`, and
decode `user`/`password` with the `+`→space convention. -/
def paramStep (ps : LoginParams) (cs : List Char) : LoginParams :=
  if cs = [] then ps
  else
    if ':' ∉ cs then ps
    else
      let key := String.mk (cs.takeWhile (· ≠ ':'))
      let value := String.mk ((cs.dropWhile (· ≠ ':')).drop 1)
      if key = "" ∨ value = "" then ps
      else if key = "server" then { ps with server := some value }
      else if key = "code" then { ps with code := some (jsDecodeOr value) }
      else if key = "state" then { ps with state := some (jsDecodeOr value) }
      else if key = "user" then { ps with user := some (jsDecodePlusOr value) }
      else if key = "password" then { ps with password := some (jsDecodePlusOr value) }
      else ps

/-- The parameter record accumulated by the parameter loop of
`parseLoginRedirectUrl` (the fold of `paramStep` over
`paramsString.split('&')`, where `paramsString` is the URL body after
`nc://login/`). -/
def parsedLoginParams (url : String) : LoginParams :=
  (splitOnChar '&' ((url.toList.drop 5).drop 6)).foldl paramStep {}

/-- `parseLoginRedirectUrl` (login.service.js lines 24–142). `Except.error`
models a thrown `Error` with that message prefix. -/
def parseLoginRedirectUrl (url : String) : Except String Credentials :=
  if url = "" then .error "Invalid URL: URL must be a non-empty string"
  else if ¬ strStartsWith url "nc://" then .error "Invalid protocol"
  else if url.toList.drop 5 = [] then .error "Invalid URL: Missing endpoint after protocol"
  else if ¬ "login/".toList.isPrefixOf (url.toList.drop 5) then .error "Invalid endpoint"
  else if (url.toList.drop 5).drop 6 = [] then .error "Invalid URL: Missing parameters after login/"
  else if ¬ truthyOpt (parsedLoginParams url).server then .error "Missing required parameter: server"
  else if ¬ truthyOpt (parsedLoginParams url).user then .error "Missing required parameter: user"
  else if ¬ truthyOpt (parsedLoginParams url).password then .error "Missing required parameter: password"
  else
    match jsURLProtocol ((parsedLoginParams url).server.getD "") with
    | none => .error ("Invalid server URL: " ++ (parsedLoginParams url).server.getD "")
    | some proto =>
      if ¬ strStartsWith proto "http" then
        .error ("Invalid server URL: " ++ (parsedLoginParams url).server.getD "")
      else
        .ok { server := (parsedLoginParams url).server.getD ""
              user := (parsedLoginParams url).user.getD ""
              password := (parsedLoginParams url).password.getD ""
              code := if truthyOpt (parsedLoginParams url).code then (parsedLoginParams url).code else none
              state := if truthyOpt (parsedLoginParams url).state then (parsedLoginParams url).state else none }

/-- `.replace(/%20/g, '+')`: every (left-to-right, non-overlapping)
occurrence of `%20` becomes `+`. -/
def replacePct20 : List Char → List Char
  | '%' :: '2' :: '0' :: rest => '+' :: replacePct20 rest
  | c :: rest => c :: replacePct20 rest
  | [] => []

/-- `encodeURIComponent(v).replace(/%20/g, '+')` as used by
`buildLoginRedirectUrl`. -/
def encodeWithPlus (v : String) : String :=
  String.mk (replacePct20 (encodeURIComponentJs v).toList)

/-- `buildLoginRedirectUrl` (login.service.js lines 151–207). -/
def buildLoginRedirectUrl (c : Credentials) : Except String String :=
  if ¬ truthyStr c.server then .error "Missing required parameter: server"
  else if ¬ truthyStr c.user then .error "Missing required parameter: user"
  else if ¬ truthyStr c.password then .error "Missing required parameter: password"
  else if (jsURLProtocol c.server).isNone then .error ("Invalid server URL: " ++ c.server)
  else
    let base := "nc://login/server:" ++ encodeWithPlus c.server ++
      "&user:" ++ encodeWithPlus c.user ++
      "&password:" ++ encodeWithPlus c.password
    let withCode :=
      if truthyOpt c.code then base ++ "&code:" ++ encodeWithPlus (c.code.getD "")
      else base
    let withState :=
      if truthyOpt c.state then withCode ++ "&state:" ++ encodeWithPlus (c.state.getD "")
      else withCode
    .ok withState

/-- `isValidLoginFlowUrl` (login.service.js lines 215–227). -/
def isValidLoginFlowUrl (url : String) : Bool :=
  (parseLoginRedirectUrl url).toOption.isSome

/-- `extractOAuthParams` (login.service.js lines 235–252): the `{ code, state }`
pair when the URL parses, empty otherwise. -/
def extractOAuthParams (url : String) : Option String × Option String :=
  match parseLoginRedirectUrl url with
  | .error _ => (none, none)
  | .ok c => (c.code, c.state)

/-! ### CredentialStore / AuthStrategyResolver — `custom/domainAuth.js` -/

/-- The inner `credentials` object of a persisted credential record. Fields
cover both the old on-disk format (`server`/`user`/`password`) and the
current one (`username`/`password`), plus the OAuth fields read by
`validateCredentials`. Absent keys are `none`. -/
structure AuthObj where
  server : Option String := none
  user : Option String := none
  password : Option String := none
  username : Option String := none
  type : Option String := none
  token : Option String := none
deriving DecidableEq, Repr

/-- A parsed `credentials.json` record. -/
structure CredRec where
  serverUrl : Option String := none
  credentials : Option AuthObj := none
deriving DecidableEq, Repr

/-- `fixCredentialsFormat` (domainAuth.js lines 49–62). The argument is the
possibly-null parsed JSON value (`none` models `null`/`undefined`). -/
def fixCredentialsFormat (creds : Option CredRec) : Option CredRec :=
  match creds with
  | none => none
  | some c =>
    match c.credentials with
    | none => some c
    | some inner =>
      if truthyOpt inner.server && truthyOpt inner.user && truthyOpt inner.password then
        some { serverUrl := jsOr c.serverUrl inner.server
               credentials := some { username := inner.user, password := inner.password } }
      else some c

/-- `readSaved` (domainAuth.js lines 11–25), with the filesystem abstracted:
`disk` is the parsed content of `credentials.json` when the file exists and
parses (`none` models a missing file, a read error, or a JSON parse error,
all of which make `readSaved` return `null`). -/
def readSaved (disk : Option CredRec) : Option CredRec :=
  match disk with
  | none => none
  | some creds => fixCredentialsFormat (some creds)

/-- `validateCredentials` (domainAuth.js lines 122–129). -/
def validateCredentials (creds : Option CredRec) : Bool :=
  match creds with
  | none => false
  | some c =>
    if ¬ truthyOpt c.serverUrl then false
    else
      match c.credentials with
      | none => false
      | some auth =>
        if (jsURLProtocol (c.serverUrl.getD "")).isNone then false
        else if truthyOpt auth.username && truthyOpt auth.password then true
        else if auth.type = some "oauth" then truthyOpt auth.token && truthyOpt auth.username
        else false

/-- The strategy record returned by `determineAuthStrategy`. -/
structure AuthStrategy where
  type : String
  reason : String
  creds : Option CredRec := none
  serverUrl : Option String := none
deriving DecidableEq, Repr

/-- `determineAuthStrategy` (domainAuth.js lines 93–105) composed with
`detectAuthState` (lines 86–91). The domain probe (`isOnDomain`, an external
`whoami` invocation) is abstracted into the boolean `inDomain`; `disk` is
the parsed credential file as in `readSaved`; `cfgDomain` is
`BUILD_CONFIG?.domain`. -/
def determineAuthStrategy (inDomain : Bool) (disk : Option CredRec)
    (cfgDomain : Option String) : AuthStrategy :=
  let saved := readSaved disk
  if inDomain then
    { type := "saml", reason := "domain_joined"
      serverUrl := jsOr cfgDomain (saved.bind (·.serverUrl)) }
  else
    match saved with
    | some c =>
      { type := "file", reason := "credentials_file_found"
        creds := some c, serverUrl := c.serverUrl }
    | none =>
      { type := "manual", reason := "no_auto_auth_available", serverUrl := cfgDomain }

/-! ### PKCEChallengeGenerator — `openLoginWebView` (login.service.js lines 465–472, 1361–1368) -/

/-- The alphabet of `generateRandomString`:
`ABCDEFGHIJKLMNOPQRSTUVWXYZabcdefghijklmnopqrstuvwxyz0123456789-._~`
(66 characters). -/
def pkceAlphabet : List Char :=
  "ABCDEFGHIJKLMNOPQRSTUVWXYZabcdefghijklmnopqrstuvwxyz0123456789-._~".toList

/-- `generateRandomString(length)` (login.service.js lines 1361–1368):
`length` draws of `chars.charAt(Math.floor(Math.random() * chars.length))`,
with the randomness source abstracted as a function into `Fin 66`. -/
def generateRandomString (rand : Nat → Fin 66) (len : Nat) : String :=
  String.mk ((List.range len).map (fun i =>
    pkceAlphabet.get ⟨(rand i).val, (rand i).isLt⟩))

/-- The standard base64 alphabet used by `digest('base64')`. -/
def base64Table : List Char :=
  "ABCDEFGHIJKLMNOPQRSTUVWXYZabcdefghijklmnopqrstuvwxyz0123456789+/".toList

def b64char (n : Nat) : Char := base64Table.getD (n % 64) 'A'

/-- Model of Node's `createHash(...).digest('base64')` encoding step:
standard base64 of a byte list, `=`-padded. -/
def base64Encode : List Nat → List Char
  | [] => []
  | [b1] => [b64char (b1 / 4), b64char ((b1 % 4) * 16), '=', '=']
  | [b1, b2] => [b64char (b1 / 4), b64char ((b1 % 4) * 16 + b2 / 16),
                 b64char ((b2 % 16) * 4), '=']
  | b1 :: b2 :: b3 :: rest =>
    b64char (b1 / 4) :: b64char ((b1 % 4) * 16 + b2 / 16) ::
    b64char ((b2 % 16) * 4 + b3 / 64) :: b64char (b3 % 64) :: base64Encode rest

def replacePlusChar (c : Char) : Char := if c = '+' then '-' else c

def replaceSlashChar (c : Char) : Char := if c = '/' then '_' else c

/-- The challenge pipeline of `openLoginWebView` (login.service.js lines
466–471): base64 of the SHA-256 digest, then `.replace(/\+/g, '-')`,
`.replace(/\//g, '_')`, `.replace(/=/g, '')`. The SHA-256 digest itself is
an opaque byte list (the hash is a Node builtin): `codeChallengeOf digest`
is the challenge computed from digest bytes `digest`. -/
def codeChallengeOf (digestBytes : List Nat) : String :=
  String.mk ((((base64Encode digestBytes).map replacePlusChar).map replaceSlashChar).filter
    (fun c => c ≠ '='))

/-! ### DeepLinkRouter — `main.js` (lines 47–81, 294–322)

The process-wide mailbox: `deepLinkUrl` is the cached URL, `resolvers` the
FIFO list of registered waiters (identified here by numbers), `delivered`
the log of (waiter, url) resolutions, in order. -/

structure DeepLinkState where
  deepLinkUrl : Option String := none
  resolvers : List Nat := []
  delivered : List (Nat × String) := []
deriving DecidableEq, Repr

/-- `notifyDeepLink(url)` (main.js lines 63–81): cache the URL, then drain
the whole resolver queue, resolving every waiter with `url`. (The
renderer-window `send` is outside this model.) -/
def notifyDeepLink (s : DeepLinkState) (url : String) : DeepLinkState :=
  { deepLinkUrl := some url
    resolvers := []
    delivered := s.delivered ++ s.resolvers.map (fun i => (i, url)) }

/-- The `oauth-wait-code` handler (main.js lines 294–322): consume the
cached URL if present, otherwise register as a waiter. -/
def waitCode (s : DeepLinkState) (id : Nat) : DeepLinkState :=
  match s.deepLinkUrl with
  | some u => { s with deepLinkUrl := none, delivered := s.delivered ++ [(id, u)] }
  | none => { s with resolvers := s.resolvers ++ [id] }

/-- The wait timeout (main.js lines 306–312): remove the waiter from the
queue if still registered. -/
def waitCodeTimeout (s : DeepLinkState) (id : Nat) : DeepLinkState :=
  { s with resolvers := s.resolvers.erase id }

inductive DeepLinkEvent where
  | arrive (url : String)
  | wait (id : Nat)
  | expire (id : Nat)
deriving DecidableEq, Repr

def deepLinkStep (s : DeepLinkState) (e : DeepLinkEvent) : DeepLinkState :=
  match e with
  | .arrive url => notifyDeepLink s url
  | .wait id => waitCode s id
  | .expire id => waitCodeTimeout s id

def runDeepLink (es : List DeepLinkEvent) : DeepLinkState :=
  es.foldl deepLinkStep {}

/-! ### LoginFlowOrchestrator resolution — `openLoginWebView` (login.service.js lines 424–848)

Per-attempt state of the hidden login window, restricted to the parts that
govern resolution: the promise slot (`resolved`, set at most once, as a JS
promise resolves only once; `deliveredCount` counts actual deliveries), the
window-closed flag, the `codeExchanged` latch, and whether an authorization
code exchange is in flight (the code `await`s the token endpoint between
setting `codeExchanged` and resolving). The completion signals are events:
a `nc://login` redirect (the `will-redirect`/`will-navigate` handlers), the
completion of a pending token exchange, a successful heuristic fallback
(`resolve(fallbackResult.credentials); window.close()`), and the user
closing the window. -/

structure TokenData where
  access_token : String
  user_id : Option String := none
deriving DecidableEq, Repr

inductive LoginOutcome where
  | creds (c : Credentials)
  | failure (msg : String)
deriving DecidableEq, Repr

structure LoginState where
  serverUrl : String
  sessionState : String
  resolved : Option LoginOutcome := none
  deliveredCount : Nat := 0
  windowClosed : Bool := false
  codeExchanged : Bool := false
  pendingExchange : Bool := false
deriving DecidableEq, Repr

/-- `resolve(v)` on the login promise: a JS promise settles at most once,
so a second call is a no-op. -/
def resolveOnce (s : LoginState) (v : LoginOutcome) : LoginState :=
  match s.resolved with
  | some _ => s
  | none => { s with resolved := some v, deliveredCount := s.deliveredCount + 1 }

/-- `window.close()`, which fires the `close` handler (login.service.js
lines 843–848): the window is now closed and, unless `codeExchanged` is
set, the promise is resolved with the cancellation error. -/
def closeWindow (s : LoginState) : LoginState :=
  let s1 := { s with windowClosed := true }
  if s1.codeExchanged then s1
  else resolveOnce s1 (.failure "OAuth authorization was cancelled")

/-- Credentials built from a successful token exchange (login.service.js
lines 718–723): `user` is `tokenData.user_id || 'oauth_user'`. -/
def oauthCredsOf (serverUrl : String) (td : TokenData) : Credentials :=
  { server := serverUrl
    user := (jsOr td.user_id (some "oauth_user")).getD "oauth_user"
    password := td.access_token }

inductive LoginEvent where
  | redirect (url : String)
  | exchangeDone (td : Option TokenData)
  | fallbackSuccess (c : Credentials)
  | userClose
deriving DecidableEq, Repr

/-- One event of the login window (login.service.js lines 690–848).
`redirect url` is the `will-redirect` handler: on a `nc://login` URL, a
parse failure resolves the error; a parsed callback carrying a code with
matching state starts the token exchange (setting the `codeExchanged`
latch) unless one was already started; any other parsed callback resolves
the plain credentials. `exchangeDone` is the completion of the awaited
`exchangeAuthorizationCode` call (`none` models a non-2xx or network
failure, which the function turns into `null`). `fallbackSuccess` is a
heuristic fallback that found success indicators. `userClose` is the user
closing the window. -/
def loginStep (s : LoginState) (e : LoginEvent) : LoginState :=
  match e with
  | .redirect url =>
    if ¬ strStartsWith url "nc://login" then s
    else
      match parseLoginRedirectUrl url with
      | .error msg =>
        closeWindow (resolveOnce s (.failure ("OAuth authorization failed: " ++ msg)))
      | .ok credentials =>
        let oauthParams := extractOAuthParams url
        if truthyOpt oauthParams.1 && oauthParams.2 = some s.sessionState then
          if ¬ s.codeExchanged then
            { s with codeExchanged := true, pendingExchange := true }
          else s
        else closeWindow (resolveOnce s (.creds credentials))
  | .exchangeDone td =>
    if s.pendingExchange then
      let s1 := { s with pendingExchange := false }
      match td with
      | some t => closeWindow (resolveOnce s1 (.creds (oauthCredsOf s1.serverUrl t)))
      | none =>
        closeWindow (resolveOnce s1 (.failure "Failed to exchange authorization code for token"))
    else s
  | .fallbackSuccess c => closeWindow (resolveOnce s (.creds c))
  | .userClose => closeWindow s

def initLogin (srv st : String) : LoginState :=
  { serverUrl := srv, sessionState := st }

def runLogin (s : LoginState) (es : List LoginEvent) : LoginState :=
  es.foldl loginStep s

/-- Resolution invariant of a login attempt: at most one outcome is ever
delivered, nothing is delivered while the promise is unresolved, and a
resolved attempt has closed its window. -/
def LoginInv (s : LoginState) : Prop :=
  s.deliveredCount ≤ 1
  ∧ (s.resolved = none → s.deliveredCount = 0)
  ∧ (s.resolved.isSome → s.windowClosed = true)

/-! ## Claims -/

/-- C1: the claimed round-trip `parseLoginRedirectUrl (buildLoginRedirectUrl c) = c`
fails on the code. `buildLoginRedirectUrl` percent-encodes the server value,
but `parseLoginRedirectUrl` keeps the `server` parameter raw and then
requires it to parse as a URL, which the percent-encoded form never does:
for the well-formed ASCII credentials below, building succeeds and
re-parsing the built URL throws `Invalid server URL` instead of returning
the record. -/
theorem roundtrip_fails_on_built_url :
    buildLoginRedirectUrl
        { server := "https://cloud.example.com", user := "alice", password := "secret pw" }
      = .ok "nc://login/server:https%3A%2F%2Fcloud.example.com&user:alice&password:secret+pw"
    ∧ parseLoginRedirectUrl
        "nc://login/server:https%3A%2F%2Fcloud.example.com&user:alice&password:secret+pw"
      = .error "Invalid server URL: https%3A%2F%2Fcloud.example.com" :=
  ⟨rfl, rfl⟩

/-- C2: decoding the scenario-A callback URL does not succeed: the `server`
parameter is kept raw by `parseLoginRedirectUrl`, so the percent-encoded
value `https%3A%2F%2Fcloud.example.com` fails the `new URL` check and the
parse throws instead of returning the claimed record. (The unencoded
variant of the same callback does decode to exactly the claimed record,
confirming the rest of the decoding pipeline.) -/
theorem scenarioA_decode_fails :
    parseLoginRedirectUrl
        "nc://login/server:https%3A%2F%2Fcloud.example.com&user:alice&password:secret+pw"
      = .error "Invalid server URL: https%3A%2F%2Fcloud.example.com"
    ∧ parseLoginRedirectUrl
        "nc://login/server:https://cloud.example.com&user:alice&password:secret+pw"
      = .ok { server := "https://cloud.example.com", user := "alice", password := "secret pw" } :=
  ⟨rfl, rfl⟩

/-- C9: reading a persisted credential file in the old format
`(credentials: (server, user, password))` returns the migrated record
`(serverUrl, credentials: (username, password))`, and a record already in
the current shape is returned unchanged by `readSaved`. -/
theorem old_format_migrated_on_read (s u p : String)
    (hs : s ≠ "") (hu : u ≠ "") (hp : p ≠ "") (sv u2 p2 : Option String) :
    readSaved (some { serverUrl := none
                      credentials := some { server := some s, user := some u, password := some p } })
      = some { serverUrl := some s
               credentials := some { username := some u, password := some p } }
    ∧ readSaved (some { serverUrl := sv
                        credentials := some { username := u2, password := p2 } })
      = some { serverUrl := sv
               credentials := some { username := u2, password := p2 } } := by
  constructor
  · simp [readSaved, fixCredentialsFormat, truthyOpt, jsOr, hs, hu, hp]
  · simp [readSaved, fixCredentialsFormat, truthyOpt]

/-- C9 witness: the migration theorem at a concrete old-format file. -/
theorem old_format_migrated_on_read_witness :
    readSaved (some { serverUrl := none
                      credentials := some { server := some "https://cloud.example.com"
                                            user := some "alice", password := some "pw" } })
      = some { serverUrl := some "https://cloud.example.com"
               credentials := some { username := some "alice", password := some "pw" } }
    ∧ readSaved (some { serverUrl := some "https://cloud.example.com"
                        credentials := some { username := some "alice", password := some "pw" } })
      = some { serverUrl := some "https://cloud.example.com"
               credentials := some { username := some "alice", password := some "pw" } } :=
  old_format_migrated_on_read "https://cloud.example.com" "alice" "pw"
    (by decide) (by decide) (by decide)
    (some "https://cloud.example.com") (some "alice") (some "pw")

/-- C10: `fixCredentialsFormat` is idempotent on every input: a migrated
record has a `credentials` object without a `server` key, so the old-format
guard cannot match a second time; every other input is returned unchanged. -/
theorem fixCredentialsFormat_idempotent (x : Option CredRec) :
    fixCredentialsFormat (fixCredentialsFormat x) = fixCredentialsFormat x := by
  match x with
  | none => rfl
  | some c =>
    match hc : c.credentials with
    | none => simp [fixCredentialsFormat, hc]
    | some inner =>
      by_cases hg : (truthyOpt inner.server && truthyOpt inner.user && truthyOpt inner.password) = true
      · have h1 : fixCredentialsFormat (some c)
            = some { serverUrl := jsOr c.serverUrl inner.server
                     credentials := some { username := inner.user, password := inner.password } } := by
          simp only [fixCredentialsFormat, hc]
          rw [if_pos hg]
        rw [h1]
        simp [fixCredentialsFormat, truthyOpt]
      · have h1 : fixCredentialsFormat (some c) = some c := by
          simp only [fixCredentialsFormat, hc]
          rw [if_neg hg]
        rw [h1]
        simp only [fixCredentialsFormat, hc]
        rw [if_neg hg]

/-- C3: counterexample to the claim that `saved-credentials` requires the
saved record to pass shape validation. `determineAuthStrategy` only tests
existence (`!!saved`), never calling `validateCredentials`: a saved record
whose server URL does not parse fails validation, yet with the probe
reporting "not joined" the resolver still returns the saved-credentials
(`file`) strategy instead of `manual`. -/
theorem strategy_ignores_validation :
    validateCredentials
        (some { serverUrl := some "notaurl"
                credentials := some { username := some "u", password := some "p" } })
      = false
    ∧ (determineAuthStrategy false
        (some { serverUrl := some "notaurl"
                credentials := some { username := some "u", password := some "p" } })
        none).type
      = "file" :=
  ⟨rfl, rfl⟩

/-- C3 (amended): strategy resolution is order-sensitive, but the
saved-credentials arm only requires that a record was read from disk
(existing, readable, JSON-parseable, after format migration), not that it
passes shape validation: domain-joined always yields `saml`
(domain-federated); otherwise a read record yields `file`
(saved-credentials) carrying that record; otherwise `manual`. -/
theorem strategy_precedence (inDomain : Bool) (disk : Option CredRec)
    (cfgDomain : Option String) :
    (determineAuthStrategy inDomain disk cfgDomain).type
      = (if inDomain then "saml"
         else if (readSaved disk).isSome then "file" else "manual")
    ∧ (determineAuthStrategy inDomain disk cfgDomain).creds
      = (if inDomain then none else readSaved disk) := by
  unfold determineAuthStrategy
  by_cases h : inDomain
  · simp [h]
  · simp only [h]
    cases hs : readSaved disk <;> simp [hs]

/-- C4: counterexample to "a deep link arriving while waiters are
registered satisfies exactly one waiter (FIFO), leaving the others
waiting": with two registered waiters, `notifyDeepLink` drains the whole
queue, delivering the URL to both. -/
theorem deeplink_resolves_all_waiters :
    (runDeepLink [.wait 0, .wait 1]).resolvers = [0, 1]
    ∧ (runDeepLink [.wait 0, .wait 1]).delivered = []
    ∧ (runDeepLink [.wait 0, .wait 1, .arrive "nc://login/x"]).delivered
        = [(0, "nc://login/x"), (1, "nc://login/x")]
    ∧ (runDeepLink [.wait 0, .wait 1, .arrive "nc://login/x"]).resolvers = [] :=
  ⟨rfl, rfl, rfl, rfl⟩

/-- C4 (amended): a deep link that arrives while no waiter is registered is
cached and delivered to the next waiter rather than dropped; a deep link
that arrives while waiters are registered satisfies every registered waiter
(the whole queue is drained), not just the first. -/
theorem deeplink_mailbox (pre : List DeepLinkEvent) (url : String) (id : Nat) :
    ((runDeepLink pre).resolvers = [] →
      (runDeepLink (pre ++ [.arrive url, .wait id])).delivered
        = (runDeepLink pre).delivered ++ [(id, url)])
    ∧ (runDeepLink (pre ++ [.arrive url])).delivered
        = (runDeepLink pre).delivered
            ++ (runDeepLink pre).resolvers.map (fun i => (i, url))
    ∧ (runDeepLink (pre ++ [.arrive url])).resolvers = [] := by
  simp only [runDeepLink]
  refine ⟨fun hempty => ?_, ?_, ?_⟩ <;>
    simp_all [List.foldl_append, deepLinkStep, notifyDeepLink, waitCode]

/-- C4 witness: the amended mailbox property on a concrete trace (a deep
link arrives with no waiter and is handed to the next waiter). -/
theorem deeplink_mailbox_witness :
    ((runDeepLink []).resolvers = [] →
      (runDeepLink ([] ++ [.arrive "nc://login/y", .wait 7])).delivered
        = (runDeepLink []).delivered ++ [(7, "nc://login/y")])
    ∧ (runDeepLink ([] ++ [.arrive "nc://login/y"])).delivered
        = (runDeepLink []).delivered
            ++ (runDeepLink []).resolvers.map (fun i => (i, "nc://login/y"))
    ∧ (runDeepLink ([] ++ [.arrive "nc://login/y"])).resolvers = [] :=
  deeplink_mailbox [] "nc://login/y" 7

/-- C6: counterexample to "a server value that does not parse as an
http/https URL makes decode fail". The code only checks that the parsed
protocol starts with the four characters `http`: the callback below carries
the server `httpx://a`, whose URL scheme is `httpx` — neither `http` nor
`https` — yet decoding succeeds. -/
theorem decode_accepts_httpx_scheme :
    parseLoginRedirectUrl "nc://login/server:httpx://a&user:u&password:p"
      = .ok { server := "httpx://a", user := "u", password := "p" }
    ∧ jsURLProtocol "httpx://a" = some "httpx:"
    ∧ "httpx:" ≠ "http:" ∧ "httpx:" ≠ "https:" :=
  ⟨rfl, rfl, by decide, by decide⟩

/-- C6 (amended): decoding fails with an error for every input URL with the
wrong scheme (not `nc://`), or the wrong path segment (not `login/`), or a
missing/empty required key among `server`, `user`, `password`, or a
`server` value whose parsed protocol does not start with `http` (which
admits any scheme with that prefix, such as `httpx`, rather than exactly
http/https). -/
theorem decode_error_cases (url : String)
    (h : ¬ strStartsWith url "nc://"
       ∨ ¬ "login/".toList.isPrefixOf (url.toList.drop 5)
       ∨ ¬ truthyOpt (parsedLoginParams url).server
       ∨ ¬ truthyOpt (parsedLoginParams url).user
       ∨ ¬ truthyOpt (parsedLoginParams url).password
       ∨ ∀ proto, jsURLProtocol ((parsedLoginParams url).server.getD "") = some proto →
           ¬ strStartsWith proto "http") :
    ∃ msg, parseLoginRedirectUrl url = .error msg := by
  unfold parseLoginRedirectUrl
  by_cases e0 : url = ""
  · rw [if_pos e0]; exact ⟨_, rfl⟩
  rw [if_neg e0]
  by_cases e1 : strStartsWith url "nc://" = true
  case neg => rw [if_pos e1]; exact ⟨_, rfl⟩
  rw [if_neg (not_not_intro e1)]
  by_cases e2 : url.toList.drop 5 = []
  · rw [if_pos e2]; exact ⟨_, rfl⟩
  rw [if_neg e2]
  by_cases e3 : ("login/".toList.isPrefixOf (url.toList.drop 5)) = true
  case neg => rw [if_pos e3]; exact ⟨_, rfl⟩
  rw [if_neg (not_not_intro e3)]
  by_cases e4 : (url.toList.drop 5).drop 6 = []
  · rw [if_pos e4]; exact ⟨_, rfl⟩
  rw [if_neg e4]
  by_cases e5 : truthyOpt (parsedLoginParams url).server = true
  case neg => rw [if_pos e5]; exact ⟨_, rfl⟩
  rw [if_neg (not_not_intro e5)]
  by_cases e6 : truthyOpt (parsedLoginParams url).user = true
  case neg => rw [if_pos e6]; exact ⟨_, rfl⟩
  rw [if_neg (not_not_intro e6)]
  by_cases e7 : truthyOpt (parsedLoginParams url).password = true
  case neg => rw [if_pos e7]; exact ⟨_, rfl⟩
  rw [if_neg (not_not_intro e7)]
  cases hj : jsURLProtocol ((parsedLoginParams url).server.getD "") with
  | none => exact ⟨_, rfl⟩
  | some proto =>
    dsimp only
    by_cases e8 : strStartsWith proto "http" = true
    case neg => rw [if_pos e8]; exact ⟨_, rfl⟩
    rw [if_neg (not_not_intro e8)]
    rcases h with h | h | h | h | h | h
    · exact absurd e1 h
    · exact absurd e3 h
    · exact absurd e5 h
    · exact absurd e6 h
    · exact absurd e7 h
    · exact absurd e8 (h proto hj)

/-- C6 witness: the amended error-case theorem at a concrete wrong-scheme
input. -/
theorem decode_error_cases_witness :
    ∃ msg, parseLoginRedirectUrl "http://cloud.example.com" = .error msg :=
  decode_error_cases "http://cloud.example.com" (Or.inl (by decide))

theorem replacePlusChar_ne_plus (a : Char) : replacePlusChar a ≠ '+' := by
  unfold replacePlusChar
  split_ifs with h
  · decide
  · exact h

theorem replaceSlashChar_ne_slash (a : Char) : replaceSlashChar a ≠ '/' := by
  unfold replaceSlashChar
  split_ifs with h
  · decide
  · exact h

theorem replaceSlashChar_ne_plus (a : Char) (h : a ≠ '+') : replaceSlashChar a ≠ '+' := by
  unfold replaceSlashChar
  split_ifs with hs
  · decide
  · exact h

theorem urlSafeChain_chars (cs : List Char) (c : Char)
    (hc : c ∈ ((cs.map replacePlusChar).map replaceSlashChar).filter (fun x => x ≠ '=')) :
    c ≠ '=' ∧ c ≠ '+' ∧ c ≠ '/' := by
  rw [List.mem_filter] at hc
  obtain ⟨hmem, hne⟩ := hc
  rw [List.mem_map] at hmem
  obtain ⟨b, hb, rfl⟩ := hmem
  rw [List.mem_map] at hb
  obtain ⟨a, ha, rfl⟩ := hb
  exact ⟨by simpa using hne,
         replaceSlashChar_ne_plus _ (replacePlusChar_ne_plus a),
         replaceSlashChar_ne_slash _⟩

/-- C7: every generated PKCE verifier has exactly 128 characters, all drawn
from the 66-character alphabet `A-Z a-z 0-9 - . _ ~`, and the challenge —
which `codeChallengeOf` defines exactly as the base64 encoding of the
SHA-256 digest with `+` mapped to `-`, `/` mapped to `_`, and `=` removed —
never contains `=`, `+`, or `/`, whatever bytes the digest produced. -/
theorem pkce_verifier_and_challenge (rand : Nat → Fin 66) (digestBytes : List Nat) :
    (generateRandomString rand 128).length = 128
    ∧ ((generateRandomString rand 128).toList.all (fun c => decide (c ∈ pkceAlphabet))) = true
    ∧ codeChallengeOf digestBytes
        = String.mk ((((base64Encode digestBytes).map replacePlusChar).map replaceSlashChar).filter
            (fun c => c ≠ '='))
    ∧ ((codeChallengeOf digestBytes).toList.all
        (fun c => decide (c ≠ '=') && decide (c ≠ '+') && decide (c ≠ '/'))) = true := by
  refine ⟨?_, ?_, rfl, ?_⟩
  · simp [generateRandomString, String.length]
  · rw [List.all_eq_true]
    intro c hc
    simp only [generateRandomString, String.toList] at hc
    rw [List.mem_map] at hc
    obtain ⟨i, _, rfl⟩ := hc
    exact decide_eq_true (List.get_mem _ _ _)
  · rw [List.all_eq_true]
    intro c hc
    simp only [codeChallengeOf, String.toList] at hc
    obtain ⟨h1, h2, h3⟩ := urlSafeChain_chars (base64Encode digestBytes) c hc
    simp [h1, h2, h3]

theorem resolveOnce_of_some (s : LoginState) (v : LoginOutcome) (w : LoginOutcome)
    (h : s.resolved = some v) : resolveOnce s w = s := by
  unfold resolveOnce
  rw [h]

theorem closeWindow_resolved_some (s : LoginState) (v : LoginOutcome)
    (h : s.resolved = some v) : (closeWindow s).resolved = some v := by
  unfold closeWindow
  dsimp only
  split_ifs with hc
  · exact h
  · unfold resolveOnce
    simp only [h]

theorem closeRes_resolved_some (s : LoginState) (v w : LoginOutcome)
    (h : s.resolved = some v) : (closeWindow (resolveOnce s w)).resolved = some v := by
  rw [resolveOnce_of_some s v w h]
  exact closeWindow_resolved_some s v h

theorem loginStep_resolved_some (s : LoginState) (e : LoginEvent) (v : LoginOutcome)
    (h : s.resolved = some v) : (loginStep s e).resolved = some v := by
  cases e with
  | redirect url =>
    simp only [loginStep]
    by_cases h1 : strStartsWith url "nc://login" = true
    case neg => rw [if_pos h1]; exact h
    rw [if_neg (not_not_intro h1)]
    cases hp : parseLoginRedirectUrl url with
    | error msg => exact closeRes_resolved_some s v _ h
    | ok credentials =>
      dsimp only
      by_cases h2 : (truthyOpt (extractOAuthParams url).1
          && decide ((extractOAuthParams url).2 = some s.sessionState)) = true
      · rw [if_pos h2]
        by_cases h3 : s.codeExchanged = true
        · rw [if_neg (not_not_intro h3)]; exact h
        · rw [if_pos h3]; exact h
      · rw [if_neg h2]; exact closeRes_resolved_some s v _ h
  | exchangeDone td =>
    simp only [loginStep]
    split_ifs with h1
    · cases td with
      | some t => exact closeRes_resolved_some _ v _ h
      | none => exact closeRes_resolved_some _ v _ h
    · exact h
  | fallbackSuccess c => exact closeRes_resolved_some s v _ h
  | userClose => exact closeWindow_resolved_some s v h

theorem closeRes_inv (s : LoginState) (w : LoginOutcome) (h : LoginInv s) :
    LoginInv (closeWindow (resolveOnce s w)) := by
  obtain ⟨su, ss, r, dc, wc, ce, pe⟩ := s
  obtain ⟨hcount, hnone, hclosed⟩ := h
  simp only [LoginInv, resolveOnce, closeWindow] at *
  cases r <;> cases ce <;> simp_all

theorem closeWindow_inv (s : LoginState) (h : LoginInv s) : LoginInv (closeWindow s) := by
  obtain ⟨su, ss, r, dc, wc, ce, pe⟩ := s
  obtain ⟨hcount, hnone, hclosed⟩ := h
  simp only [LoginInv, resolveOnce, closeWindow] at *
  cases r <;> cases ce <;> simp_all


theorem loginStep_inv (s : LoginState) (e : LoginEvent) (h : LoginInv s) :
    LoginInv (loginStep s e) := by
  cases e with
  | redirect url =>
    simp only [loginStep]
    by_cases h1 : strStartsWith url "nc://login" = true
    case neg => rw [if_pos h1]; exact h
    rw [if_neg (not_not_intro h1)]
    cases hp : parseLoginRedirectUrl url with
    | error msg => exact closeRes_inv s _ h
    | ok credentials =>
      dsimp only
      by_cases h2 : (truthyOpt (extractOAuthParams url).1
          && decide ((extractOAuthParams url).2 = some s.sessionState)) = true
      · rw [if_pos h2]
        by_cases h3 : s.codeExchanged = true
        · rw [if_neg (not_not_intro h3)]; exact h
        · rw [if_pos h3]
          exact ⟨h.1, fun hn => h.2.1 hn, fun hs2 => h.2.2 hs2⟩
      · rw [if_neg h2]; exact closeRes_inv s _ h
  | exchangeDone td =>
    simp only [loginStep]
    by_cases h1 : s.pendingExchange = true
    · rw [if_pos h1]
      cases td with
      | some t => exact closeRes_inv _ _ ⟨h.1, fun hn => h.2.1 hn, fun hs2 => h.2.2 hs2⟩
      | none => exact closeRes_inv _ _ ⟨h.1, fun hn => h.2.1 hn, fun hs2 => h.2.2 hs2⟩
    · rw [if_neg h1]; exact h
  | fallbackSuccess c => exact closeRes_inv s _ h
  | userClose => exact closeWindow_inv s h

theorem runLogin_inv (es : List LoginEvent) (s : LoginState) (h : LoginInv s) :
    LoginInv (runLogin s es) := by
  induction es generalizing s with
  | nil => exact h
  | cons e es ih => exact ih (loginStep s e) (loginStep_inv s e h)

/-- C5: within one login attempt, resolution is single-shot: once an
outcome is delivered, every later completion signal leaves it unchanged (a
no-op); over any sequence of completion signals from a fresh attempt, at
most one outcome is ever delivered to the caller; and whenever the attempt
stands resolved, the hidden login window has been closed. -/
theorem login_single_resolution (s : LoginState) (e : LoginEvent) (v : LoginOutcome)
    (srv st : String) (es : List LoginEvent) (h : s.resolved = some v) :
    (loginStep s e).resolved = some v
    ∧ (runLogin (initLogin srv st) es).deliveredCount ≤ 1
    ∧ ((runLogin (initLogin srv st) es).resolved.isSome →
        (runLogin (initLogin srv st) es).windowClosed = true) := by
  have hinv : LoginInv (initLogin srv st) :=
    ⟨Nat.zero_le 1, fun _ => rfl, fun hs => by simp [initLogin] at hs⟩
  have hrun := runLogin_inv es (initLogin srv st) hinv
  exact ⟨loginStep_resolved_some s e v h, hrun.1, hrun.2.2⟩

/-- C5 witness: the single-resolution theorem at a concrete resolved state
and a concrete signal trace. -/
theorem login_single_resolution_witness :
    (loginStep
        { serverUrl := "https://cloud.example.com", sessionState := "ST"
          resolved := some (.failure "x"), deliveredCount := 1 }
        .userClose).resolved
      = some (.failure "x")
    ∧ (runLogin (initLogin "https://cloud.example.com" "ST")
        [.fallbackSuccess { server := "https://cloud.example.com", user := "u", password := "p" },
         .userClose]).deliveredCount ≤ 1
    ∧ ((runLogin (initLogin "https://cloud.example.com" "ST")
        [.fallbackSuccess { server := "https://cloud.example.com", user := "u", password := "p" },
         .userClose]).resolved.isSome →
        (runLogin (initLogin "https://cloud.example.com" "ST")
        [.fallbackSuccess { server := "https://cloud.example.com", user := "u", password := "p" },
         .userClose]).windowClosed = true) :=
  login_single_resolution
    { serverUrl := "https://cloud.example.com", sessionState := "ST"
      resolved := some (.failure "x"), deliveredCount := 1 }
    .userClose (.failure "x") "https://cloud.example.com" "ST"
    [.fallbackSuccess { server := "https://cloud.example.com", user := "u", password := "p" },
     .userClose] rfl

/-- C8: counterexample. The close handler guards the cancellation resolve
with the `codeExchanged` latch, not with "no resolution delivered yet": a
callback carrying a matching authorization code sets `codeExchanged` and
starts an awaited token exchange without resolving; if the user closes the
window during that await (no resolution delivered yet), the handler does
not resolve Cancelled, and the attempt is later resolved with the
exchange's credential outcome. -/
theorem close_during_exchange_not_cancelled :
    (runLogin (initLogin "https://cloud.example.com" "ST")
      [.redirect "nc://login/server:https://cloud.example.com&user:u&password:p&code:abc&state:ST",
       .userClose]).resolved = none
    ∧ (runLogin (initLogin "https://cloud.example.com" "ST")
      [.redirect "nc://login/server:https://cloud.example.com&user:u&password:p&code:abc&state:ST",
       .userClose]).windowClosed = true
    ∧ (runLogin (initLogin "https://cloud.example.com" "ST")
      [.redirect "nc://login/server:https://cloud.example.com&user:u&password:p&code:abc&state:ST",
       .userClose,
       .exchangeDone (some { access_token := "tok123", user_id := some "alice" })]).resolved
      = some (.creds { server := "https://cloud.example.com", user := "alice", password := "tok123" }) :=
  ⟨rfl, rfl, rfl⟩

/-- C8 (amended): if the user closes the login window before any resolution
has been delivered and no authorization-code exchange has been started
(`codeExchanged` unset), the attempt resolves with the distinct
cancellation outcome — not with a credential value and not with the
token-exchange failure error. When a code exchange is in flight at close
time, the attempt instead resolves later with the exchange's outcome. -/
theorem close_before_resolution_cancelled (s : LoginState)
    (h1 : s.resolved = none) (h2 : s.codeExchanged = false) :
    (loginStep s .userClose).resolved = some (.failure "OAuth authorization was cancelled")
    ∧ (∀ c, (loginStep s .userClose).resolved ≠ some (.creds c))
    ∧ (loginStep s .userClose).resolved
        ≠ some (.failure "Failed to exchange authorization code for token") := by
  obtain ⟨su, ss, r, dc, wc, ce, pe⟩ := s
  subst h1 h2
  simp [loginStep, closeWindow, resolveOnce]

/-- C8 witness: the amended cancellation theorem at a fresh concrete
attempt. -/
theorem close_before_resolution_cancelled_witness :
    (loginStep (initLogin "https://cloud.example.com" "ST") .userClose).resolved
      = some (.failure "OAuth authorization was cancelled")
    ∧ (∀ c, (loginStep (initLogin "https://cloud.example.com" "ST") .userClose).resolved
        ≠ some (.creds c))
    ∧ (loginStep (initLogin "https://cloud.example.com" "ST") .userClose).resolved
        ≠ some (.failure "Failed to exchange authorization code for token") :=
  close_before_resolution_cancelled (initLogin "https://cloud.example.com" "ST") rfl rfl
